import Mathlib

/-!
Shallow embedding of the fastproxy HTTP proxy (package `proxy`, files
`http.go` and `proxy.go`, plus the handler file shipped unnamed).

Modelling conventions:
* Byte streams are `List Nat` (one `Nat` per byte; 13 = CR, 10 = LF).
* A `bufio.Reader` is the list of bytes not yet consumed; `Peek` does not
  consume, `Discard n` drops `n` bytes.  How many bytes happen to sit in the
  reader's internal buffer after a successful `Peek(1)` is outside the
  program's control, so it is modelled by an `oracle : List Nat → Nat`
  giving the buffered amount for the current remaining stream, clamped to
  `[1, length]` exactly as `bufio` guarantees (at least the peeked byte, at
  most the whole remaining stream).  All results proved below are
  independent of the oracle.
* A `bufio.Writer`/sniffer is the list of bytes handed to it, in order.
* Go errors are modelled by explicit result values; `io.EOF` from the body
  copier is `CopyResult.eof`.
-/

namespace Fastproxy

/-- Result of a body copy: `ok` models a nil error, `eof` models the `io.EOF`
returned when the source is exhausted early, `badChunk` models the chunk-size
parse errors of `parseChunkSize`. -/
inductive CopyResult where
  | ok
  | eof
  | badChunk
  deriving DecidableEq

/-- Observable outcome of a body-copying call: the result, the bytes written
to `dst`, the bytes handed to the sniffer, and the bytes left unconsumed in
the source reader. -/
structure CopyOut where
  res : CopyResult
  written : List Nat
  sniffed : List Nat
  rest : List Nat
  deriving DecidableEq

/-- The slice returned by `src.Peek(src.Buffered())` after a successful
`src.Peek(1)`: some non-empty prefix of the remaining stream, of a length the
program does not control (modelled by the oracle, clamped to `[1, length]`). -/
def bufChunk (oracle : List Nat → Nat) (src : List Nat) : Nat :=
  min (max (oracle src) 1) src.length

/-- `bytesShouldRead` of one loop iteration of `copyBodyFixedSize`: the
buffered bytes truncated to the remaining budget. -/
def shouldRead (oracle : List Nat → Nat) (src : List Nat) (budget : Nat) : Nat :=
  min (bufChunk oracle src) budget

/-- `copyBodyFixedSize(src, dst, contentLength, sniffer)` from `http.go`:
loop { peek one byte (EOF if none); peek the buffered bytes; truncate to the
remaining budget; write them to dst and the sniffer; discard them from src;
stop with nil error once the budget reaches zero }. -/
def copyBodyFixedSize (oracle : List Nat → Nat) (src : List Nat) (budget : Nat) : CopyOut :=
  match src with
  | [] => ⟨.eof, [], [], []⟩
  | a :: tl =>
    if h : budget - shouldRead oracle (a :: tl) budget = 0 then
      ⟨.ok, (a :: tl).take (shouldRead oracle (a :: tl) budget),
            (a :: tl).take (shouldRead oracle (a :: tl) budget),
            (a :: tl).drop (shouldRead oracle (a :: tl) budget)⟩
    else
      let o := copyBodyFixedSize oracle
        ((a :: tl).drop (shouldRead oracle (a :: tl) budget))
        (budget - shouldRead oracle (a :: tl) budget)
      ⟨o.res, (a :: tl).take (shouldRead oracle (a :: tl) budget) ++ o.written,
              (a :: tl).take (shouldRead oracle (a :: tl) budget) ++ o.sniffed,
              o.rest⟩
termination_by budget
decreasing_by
  unfold shouldRead bufChunk at *
  simp only [List.length_cons] at *
  omega

/-- Splitting a `take` at an intermediate point (local helper). -/
theorem take_add_split (l : List Nat) (m n : Nat) :
    l.take m ++ (l.drop m).take n = l.take (m + n) := by
  rw [List.take_drop]
  have h1 : l.take m = (l.take (m + n)).take m := by
    rw [List.take_take]
    have : min m (m + n) = m := by omega
    rw [this]
  rw [h1, List.take_append_drop]

/-- Closed form of `copyBodyFixedSize`, for every oracle: it writes (and
sniffs) exactly the first `budget` bytes still available, consumes exactly
what it writes, and succeeds iff the stream is non-empty and holds at least
`budget` bytes. -/
theorem copyBodyFixedSize_eq (oracle : List Nat → Nat) :
    ∀ (budget : Nat) (src : List Nat),
      copyBodyFixedSize oracle src budget =
        ⟨if src ≠ [] ∧ budget ≤ src.length then .ok else .eof,
         src.take budget, src.take budget, src.drop budget⟩ := by
  intro budget
  induction budget using Nat.strong_induction_on with
  | _ budget ih =>
    intro src
    cases src with
    | nil =>
      simp [copyBodyFixedSize.eq_def]
    | cons a tl =>
      rw [copyBodyFixedSize.eq_def]
      dsimp only
      have h1 : 1 ≤ bufChunk oracle (a :: tl) := by
        unfold bufChunk
        simp only [List.length_cons]
        omega
      have h2 : bufChunk oracle (a :: tl) ≤ (a :: tl).length :=
        min_le_right _ _
      by_cases h : budget - shouldRead oracle (a :: tl) budget = 0
      · rw [dif_pos h]
        have hs : shouldRead oracle (a :: tl) budget = budget := by
          unfold shouldRead at *
          omega
        have hcond : ((a :: tl) ≠ [] ∧ budget ≤ (a :: tl).length) := by
          refine ⟨by simp, ?_⟩
          unfold shouldRead at hs
          omega
        rw [hs, if_pos hcond]
      · rw [dif_neg h]
        have hk : shouldRead oracle (a :: tl) budget = bufChunk oracle (a :: tl) := by
          unfold shouldRead at *
          omega
        have hlt : budget - shouldRead oracle (a :: tl) budget < budget := by
          unfold shouldRead bufChunk at *
          omega
        rw [ih _ hlt]
        have hkb : shouldRead oracle (a :: tl) budget < budget := by omega
        rw [CopyOut.mk.injEq]
        refine ⟨?_, ?_, ?_, ?_⟩
        · have hiff : (((a :: tl).drop (shouldRead oracle (a :: tl) budget)) ≠ [] ∧
              budget - shouldRead oracle (a :: tl) budget ≤
                ((a :: tl).drop (shouldRead oracle (a :: tl) budget)).length) ↔
              ((a :: tl) ≠ [] ∧ budget ≤ (a :: tl).length) := by
            rw [← List.length_pos, ← List.length_pos, List.length_drop]
            constructor
            · intro hc
              refine ⟨by simp, ?_⟩
              omega
            · intro hc
              rw [hk] at *
              omega
          simp only [hiff]
        · rw [take_add_split]
          have hsum : shouldRead oracle (a :: tl) budget +
              (budget - shouldRead oracle (a :: tl) budget) = budget := by omega
          rw [hsum]
        · rw [take_add_split]
          have hsum : shouldRead oracle (a :: tl) budget +
              (budget - shouldRead oracle (a :: tl) budget) = budget := by omega
          rw [hsum]
        · rw [List.drop_drop]
          have hsum : shouldRead oracle (a :: tl) budget +
              (budget - shouldRead oracle (a :: tl) budget) = budget := by omega
          rw [hsum]

/-- The fixed-size copier never leaves the reader longer than it was. -/
theorem copyBodyFixedSize_rest_le (oracle : List Nat → Nat) (src : List Nat) (budget : Nat) :
    (copyBodyFixedSize oracle src budget).rest.length ≤ src.length := by
  rw [copyBodyFixedSize_eq]
  simp

/-- Hex-digit test, as in the hex reader used by `parseChunkSize`
(`0-9`, `a-f`, `A-F`). -/
def isHexDigit (b : Nat) : Bool :=
  (48 ≤ b && b ≤ 57) || (97 ≤ b && b ≤ 102) || (65 ≤ b && b ≤ 70)

/-- Numeric value of one hex digit. -/
def hexDigitValue (b : Nat) : Nat :=
  if b ≤ 57 then b - 48 else if b ≤ 70 then b - 55 else b - 87

/-- Modelled from the spec: `readHexInt` is called by `parseChunkSize`
(`http.go`) but its definition is not among the provided sources.  Per the
spec, chunk-size parsing "reads hex digits"; invalid hex (no leading hex
digit) is an error.  The digits read are appended verbatim to `buffer`, the
reader is left at the first non-hex byte, and the accumulated value is
returned. -/
def readHexInt (src : List Nat) : Option (Nat × List Nat × List Nat) :=
  if src.takeWhile isHexDigit = [] then none
  else some ((src.takeWhile isHexDigit).foldl (fun acc b => 16 * acc + hexDigitValue b) 0,
             src.takeWhile isHexDigit, src.dropWhile isHexDigit)

/-- `parseChunkSize` from `http.go`: read a hex integer, then demand `'\r'`
and `'\n'`, appending `"\r\n"` to the buffer holding the digits; any failure
(bad hex, EOF, or a byte other than CR LF) is an error (`none`).  On success
it returns the chunk size, the verbatim size line, and the remaining
stream. -/
def parseChunkSize (src : List Nat) : Option (Nat × List Nat × List Nat) :=
  match readHexInt src with
  | none => none
  | some (n, digits, rest) =>
    match rest with
    | b1 :: b2 :: rest2 =>
      if b1 = 13 then
        if b2 = 10 then some (n, digits ++ [13, 10], rest2) else none
      else none
    | _ => none

/-- What a successful `readHexInt` returns: the maximal hex-digit prefix
(non-empty), its value, and the stream after it. -/
theorem readHexInt_some {src : List Nat} {n : Nat} {digits rest : List Nat}
    (h : readHexInt src = some (n, digits, rest)) :
    digits = src.takeWhile isHexDigit ∧ src.takeWhile isHexDigit ≠ [] ∧
      rest = src.dropWhile isHexDigit ∧
      n = (src.takeWhile isHexDigit).foldl (fun acc b => 16 * acc + hexDigitValue b) 0 := by
  unfold readHexInt at h
  by_cases hd : src.takeWhile isHexDigit = []
  · rw [if_pos hd] at h
    exact absurd h (by simp)
  · rw [if_neg hd] at h
    simp only [Option.some.injEq, Prod.mk.injEq] at h
    exact ⟨h.2.1.symm, hd, h.2.2.symm, h.1.symm⟩

/-- What a successful `parseChunkSize` returns: the verbatim size line is
the non-empty hex-digit prefix followed by the mandatory CRLF, and the
stream decomposes accordingly. -/
theorem parseChunkSize_some {src : List Nat} {n : Nat} {line rest : List Nat}
    (h : parseChunkSize src = some (n, line, rest)) :
    line = src.takeWhile isHexDigit ++ [13, 10] ∧ src.takeWhile isHexDigit ≠ [] ∧
      src = src.takeWhile isHexDigit ++ 13 :: 10 :: rest ∧
      n = (src.takeWhile isHexDigit).foldl (fun acc b => 16 * acc + hexDigitValue b) 0 := by
  unfold parseChunkSize at h
  cases hhex : readHexInt src with
  | none =>
    rw [hhex] at h
    exact absurd h (by simp)
  | some v =>
    obtain ⟨n0, digits, rest0⟩ := v
    rw [hhex] at h
    dsimp only at h
    obtain ⟨hdig, hne, hrest0, hval⟩ := readHexInt_some hhex
    cases rest0 with
    | nil => exact absurd h (by simp)
    | cons b1 r1 =>
      cases r1 with
      | nil => exact absurd h (by simp)
      | cons b2 rest2 =>
        dsimp only at h
        by_cases hb1 : b1 = 13
        · rw [if_pos hb1] at h
          by_cases hb2 : b2 = 10
          · rw [if_pos hb2] at h
            simp only [Option.some.injEq, Prod.mk.injEq] at h
            obtain ⟨hn, hline, hrest⟩ := h
            subst hn hline hrest hb1 hb2
            refine ⟨by rw [hdig], hne, ?_, hval⟩
            have hsplit := List.takeWhile_append_dropWhile (p := isHexDigit) (l := src)
            rw [← hrest0] at hsplit
            exact hsplit.symm
          · rw [if_neg hb2] at h
            exact absurd h (by simp)
        · rw [if_neg hb1] at h
          exact absurd h (by simp)

/-- On success `parseChunkSize` consumed at least three bytes (one hex digit
plus CR LF). -/
theorem parseChunkSize_length {src : List Nat} {n : Nat} {line rest : List Nat}
    (h : parseChunkSize src = some (n, line, rest)) : rest.length + 3 ≤ src.length := by
  obtain ⟨-, hne, hsplit, -⟩ := parseChunkSize_some h
  have hlen : 1 ≤ (src.takeWhile isHexDigit).length := by
    have := List.length_pos.mpr hne
    omega
  have hlen2 := congrArg List.length hsplit
  simp [List.length_append] at hlen2
  omega

/-- `copyBodyChunked` from `http.go`: repeat { parse the chunk-size line,
write the verbatim size line to dst and the sniffer, copy `chunkSize + 2`
bytes (chunk body plus CRLF) with `copyBodyFixedSize`, propagating its error;
stop with nil error when the chunk size is 0 }.  On a parse error nothing was
emitted for the failing size line (the source reader may have consumed part
of it; no property below depends on the reader state after an error). -/
def copyBodyChunked (oracle : List Nat → Nat) (src : List Nat) : CopyOut :=
  match hp : parseChunkSize src with
  | none => ⟨.badChunk, [], [], src⟩
  | some (n, line, rest) =>
    let o := copyBodyFixedSize oracle rest (n + 2)
    match o.res with
    | .ok =>
      if n = 0 then
        ⟨.ok, line ++ o.written, line ++ o.sniffed, o.rest⟩
      else
        let o2 := copyBodyChunked oracle o.rest
        ⟨o2.res, line ++ o.written ++ o2.written, line ++ o.sniffed ++ o2.sniffed, o2.rest⟩
    | r => ⟨r, line ++ o.written, line ++ o.sniffed, o.rest⟩
termination_by src.length
decreasing_by
  have ha := copyBodyFixedSize_rest_le oracle rest (n + 2)
  have hb := parseChunkSize_length hp
  omega

/-- `math.MaxInt64`, the budget `copyBodyIdentity` hands to the fixed-size
copier to mean "until EOF". -/
def maxInt64 : Nat := 2 ^ 63 - 1

/-- `copyBodyIdentity` from `http.go`: run the fixed-size copier with budget
`math.MaxInt64` and treat its `io.EOF` as success. -/
def copyBodyIdentity (oracle : List Nat → Nat) (src : List Nat) : CopyOut :=
  match copyBodyFixedSize oracle src maxInt64 with
  | ⟨.eof, w, s, rest⟩ => ⟨.ok, w, s, rest⟩
  | o => o

/-- The derived body signals of a parsed header block, as consumed by
`copyBody` (`header.ContentLength()`, `header.IsBodyChunked()`,
`header.IsBodyIdentity()`, `header.IsConnectionClose()`).  The `header`
package itself is not among the provided sources; these are its outputs. -/
structure Header where
  contentLength : Int
  bodyChunked : Bool
  bodyIdentity : Bool
  connClose : Bool
  deriving DecidableEq

/-- Modelled from the spec: the header parser (not under the provided
sources) guarantees that "`Content-Length` together with chunked is treated
as chunked (chunked wins)" — a parsed header never reports a positive
content length when the chunked flag is set. -/
def headerChunkedWins (h : Header) : Prop :=
  h.bodyChunked = true → h.contentLength ≤ 0

/-- `copyBody` from `http.go`: positive content length selects the
fixed-size copier, else a chunked body selects the chunked copier, else an
identity body copies until EOF, else no body bytes are copied. -/
def copyBody (oracle : List Nat → Nat) (hdr : Header) (src : List Nat) : CopyOut :=
  if 0 < hdr.contentLength then
    copyBodyFixedSize oracle src hdr.contentLength.toNat
  else if hdr.bodyChunked then
    copyBodyChunked oracle src
  else if hdr.bodyIdentity then
    copyBodyIdentity oracle src
  else
    ⟨.ok, [], [], src⟩

/-! Request and Response objects (`http.go`).  A `bufio.Reader` / sniffer /
`bufio.Writer` bound to a request or response is identified by an opaque
handle (`Nat`); `none` models a nil pointer.  `RequestLine` keeps the fields
the spec lists for a parsed start line; the `header` package that fills them
is not among the provided sources, so the outcome of `reqLine.Parse` is a
parameter of the initializer (`none` models a parse error). -/

/-- Parsed request line (`header.RequestLine`): method, raw URI and the
host:port it resolves to.  `reqLine.Reset()` zeroes all fields. -/
structure RequestLine where
  method : String := ""
  rawURI : String := ""
  hostWithPort : String := ""
  deriving DecidableEq

/-- `reqLine.Reset()`: all fields zeroed. -/
def RequestLine.reset (_rl : RequestLine) : RequestLine := {}

/-- `header.Reset()` leaves the derived signals in their zero state. -/
def Header.reset : Header :=
  { contentLength := 0, bodyChunked := false, bodyIdentity := false, connClose := false }

/-- The `Request` struct of `http.go`: reader, parsed request line, parsed
header block, sniffer, and the TLS settings. -/
structure Request where
  reader : Option Nat := none
  reqLine : RequestLine := {}
  header : Header := Header.reset
  sniffer : Nat := 0
  isTLS : Bool := false
  tlsServerName : String := ""
  deriving DecidableEq

/-- `Request.initWithReader` from `http.go`.  `parsedLine` stands for the
outcome of `r.reqLine.Parse(reader, hostWithPort)` (the parser lives in the
`header` package, outside the provided sources); `none` is a parse error.
Checks, in source order: already initialized, nil reader, TLS with empty
server name, parse failure; only on success are the fields assigned. -/
def Request.initWithReader (r : Request) (reader : Option Nat) (sniffer : Nat)
    (isTLS : Bool) (hostWithPort tlsServerName : String)
    (parsedLine : Option RequestLine) : Except String Request :=
  if r.reader.isSome then .error "request already initialized"
  else if reader.isNone then .error "nil reader provided"
  else if isTLS = true ∧ tlsServerName = "" then .error "empty tls server name provided"
  else
    match parsedLine with
    | none => .error "fail to read start line of request"
    | some rl =>
      .ok { r with reader := reader, reqLine := rl, sniffer := sniffer,
                   isTLS := isTLS, tlsServerName := tlsServerName }

/-- `Request.InitWithProxyReader`: plain proxy connections are not TLS and
carry no host override or server name (the unused `hostWithPort` slot of
`initWithReader` is the empty string). -/
def Request.InitWithProxyReader (r : Request) (reader : Option Nat) (sniffer : Nat)
    (parsedLine : Option RequestLine) : Except String Request :=
  r.initWithReader reader sniffer false "" "" parsedLine

/-- `Request.InitWithTLSClientReader`: a decrypted TLS client stream, with
the CONNECT authority as host override and the SNI name as server name. -/
def Request.InitWithTLSClientReader (r : Request) (reader : Option Nat) (sniffer : Nat)
    (hostWithPort tlsServerName : String)
    (parsedLine : Option RequestLine) : Except String Request :=
  r.initWithReader reader sniffer true hostWithPort tlsServerName parsedLine

/-- `Request.Reset` from `http.go`: clears the reader, the request line and
the header block — and nothing else. -/
def Request.Reset (r : Request) : Request :=
  { r with reader := none, reqLine := r.reqLine.reset, header := Header.reset }

/-- `Request.IsTLS`. -/
def Request.IsTLS (r : Request) : Bool := r.isTLS

/-- `Request.TLSServerName`. -/
def Request.TLSServerName (r : Request) : String := r.tlsServerName

/-- `Request.ConnectionClose`: reads the connection-close signal of the
parsed header block (`header.IsConnectionClose()`). -/
def Request.ConnectionClose (r : Request) : Bool := r.header.connClose

/-- `ReleaseRequest` from `http.go` resets the request and puts it back into
the pool; the pooled object a later `AcquireRequest` may hand out is exactly
the reset value. -/
def ReleaseRequest (r : Request) : Request := r.Reset

/-- Whether an initialization attempt returned an error. -/
def initFailed (e : Except String Request) : Bool :=
  match e with
  | .error _ => true
  | .ok _ => false

/-- Parsed response line (`header.ResponseLine`): the raw start-line
bytes. -/
structure ResponseLine where
  raw : String := ""
  deriving DecidableEq

/-- The `Response` struct of `http.go`: writer, sniffer, parsed response
line, parsed header block. -/
structure Response where
  writer : Option Nat := none
  sniffer : Nat := 0
  respLine : ResponseLine := {}
  header : Header := Header.reset
  deriving DecidableEq

/-- `Response.ConnectionClose` from `http.go`: the body is the literal
`return false`. -/
def Response.ConnectionClose (_r : Response) : Bool := false

/-! The proxy server (`proxy.go`) and the handler (the unnamed source file in
package `proxy`). -/

/-- `DefaultConcurrency` from `proxy.go`: the maximum number of concurrent
connections. -/
def DefaultConcurrency : Nat := 256 * 1024

/-- `Serve` sets the worker pool's `MaxWorkersCount` to
`DefaultConcurrency`. -/
def maxWorkersCount : Nat := DefaultConcurrency

/-- Modelled from the spec: `header.StatusLine` (the `header` package is not
among the provided sources).  The spec fixes the 400 and 503 status lines
used by `writeFastError`. -/
def statusLine (code : Nat) : String :=
  if code = 400 then "HTTP/1.1 400 Bad Request\r\n"
  else if code = 503 then "HTTP/1.1 503 Service Unavailable\r\n"
  else "HTTP/1.1 " ++ toString code ++ "\r\n"

/-- `writeFastError` from `proxy.go`: writes the status line, then one
formatted block `Connection: close CRLF Date: <date> CRLF Content-Type:
text/plain CRLF Content-Length: <len(msg)> CRLF CRLF <msg>`.  `date` stands
for `servertime.ServerDate()` (an RFC1123 clock reading, outside the
provided sources).  All messages involved are ASCII, so `String.length`
coincides with Go's byte-counting `len`. -/
def writeFastError (code : Nat) (date msg : String) : String :=
  statusLine code ++ "Connection: close\r\nDate: " ++ date ++
    "\r\nContent-Type: text/plain\r\nContent-Length: " ++ toString msg.length ++
    "\r\n\r\n" ++ msg

/-- The body `serveConn` sends for a non-proxy request. -/
def nonProxyRequestMsg : String :=
  "This is a proxy server. Does not respond to non-proxy requests.\n"

/-- What reaches the client when request parsing fails with
`ErrNoHostProvided` in `serveConn` (`proxy.go`): `writeFastError` with
status 400 and the non-proxy message.  The `closed` flag records that the
connection is then terminated (`serveConn` returns an error to the worker,
which, per the spec's S_END state, closes the socket — the worker pool is
not among the provided sources). -/
structure NoHostReply where
  wire : String
  closed : Bool
  deriving DecidableEq

/-- The `ErrNoHostProvided` branch of `serveConn`. -/
def serveConnNoHost (date : String) : NoHostReply :=
  ⟨writeFastError 400 date nonProxyRequestMsg, true⟩

/-- The message `Serve` (`proxy.go`) passes to `writeFastError` when the
worker pool rejects a connection. -/
def concurrencyOverflowMsg : String :=
  "The connection cannot be served because Server.Concurrency limit exceeded"

/-- One minute, in milliseconds (`time.Minute`). -/
def minuteMs : Nat := 60000

/-- What `Serve` does to one rejected connection (the `!wp.Serve(c)` branch):
write the 503 reply, close the socket, log iff more than a minute has passed
since the last overflow log, sleep 100 ms. -/
structure RejectHandling where
  wire : String
  connClosed : Bool
  sleepMilliseconds : Nat
  logged : Bool
  deriving DecidableEq

/-- The rejection branch of `Serve`, with time in milliseconds: returns the
handling of this connection and the updated `lastOverflowErrorTime`. -/
def serveOnReject (date : String) (nowMs lastOverflowMs : Nat) : RejectHandling × Nat :=
  (⟨writeFastError 503 date concurrencyOverflowMsg, true, 100,
    decide (minuteMs < nowMs - lastOverflowMs)⟩,
   if minuteMs < nowMs - lastOverflowMs then nowMs else lastOverflowMs)

/-- The subsequence of rejection instants at which `Serve` actually logs,
threading `lastOverflowErrorTime` exactly as the rejection branch does. -/
def overflowLogTimes (lastMs : Nat) : List Nat → List Nat
  | [] => []
  | t :: ts =>
    if minuteMs < t - lastMs then t :: overflowLogTimes t ts
    else overflowLogTimes lastMs ts

/-- `sendHTTPSProxyStatusOK` writes this and nothing else. -/
def statusOKLine : String := "HTTP/1.1 200 OK\r\n\r\n"

/-- `sendHTTPSProxyStatusBadGateway` writes this and nothing else. -/
def statusBadGatewayLine : String := "HTTP/1.1 501 Bad Gateway\r\n\r\n"

/-- Outcome of `tunnelConnect` (handler file): the control writes that reach
the downstream socket in order, whether an error is returned, and the two
directional copies.  `transport.Dial`, `transport.Forward` and
`util.WriteWithValidation` are not among the provided sources; per the spec
a forward relays its source's bytes verbatim, so a completed directional
copy is `some` of the bytes relayed.  `none` means that copier was never
started. -/
structure TunnelOut where
  downstream : List String
  err : Bool
  fwdClientToOrigin : Option (List Nat)
  fwdOriginToClient : Option (List Nat)
  deriving DecidableEq

/-- `tunnelConnect` from the handler file: dial the target (`dialOk` is the
outcome); on failure write the 501 line and return an error; on success
write the 200 line (`okWriteOk` is that write's outcome; its failure returns
before any splicing), then run both directional copies and wait for both
(`sync.WaitGroup`), returning an error iff either copy failed (`fwd1Err`,
`fwd2Err`). -/
def tunnelConnect (dialOk okWriteOk : Bool) (clientBytes originBytes : List Nat)
    (fwd1Err fwd2Err : Bool) : TunnelOut :=
  if dialOk = false then
    ⟨[statusBadGatewayLine], true, none, none⟩
  else if okWriteOk = false then
    ⟨[statusOKLine], true, none, none⟩
  else
    ⟨[statusOKLine], fwd1Err || fwd2Err, some clientBytes, some originBytes⟩

/-- Outcome of `decryptConnect` (handler file): the control writes reaching
the downstream socket, whether an error is returned, whether a `Request` was
bound to the decrypted stream (`InitWithTLSClientReader` ran and succeeded),
and whether anything was handed to the upstream client engine
(`client.Do` ran). -/
structure MitmOut where
  downstream : List String
  err : Bool
  requestBound : Bool
  upstreamForwarded : Bool
  deriving DecidableEq

/-- `decryptConnect` from the handler file.  `signOk` is the outcome of
signing the fake certificate (failure writes the 501 line and returns);
`handshakeOk` folds the 200-OK write and the TLS handshake of `handShake()`;
`sni` is what the `GetCertificate` callback captured from the ClientHello
(`""` when the client presented no server name).  After `handShake()` the
code overwrites the error whenever `sni` is empty, so an empty SNI fails
even when the handshake itself succeeded; only past that point is a
`Request` bound (`reqInitOk`), a `Response` bound (`respInitOk`) and
`client.Do` invoked. -/
def decryptConnect (signOk handshakeOk : Bool) (sni : String)
    (reqInitOk respInitOk doOk : Bool) : MitmOut :=
  if signOk = false then
    ⟨[statusBadGatewayLine], true, false, false⟩
  else if sni = "" ∨ handshakeOk = false then
    ⟨[statusOKLine], true, false, false⟩
  else if reqInitOk = false then
    ⟨[statusOKLine], true, false, false⟩
  else if respInitOk = false then
    ⟨[statusOKLine], true, true, false⟩
  else
    ⟨[statusOKLine], !doOk, true, true⟩

/-! Step lemmas for the chunked copier (shared helpers). -/

/-- A chunk-size parse failure yields the chunk error with nothing
emitted. -/
theorem copyBodyChunked_parse_fail {oracle : List Nat → Nat} {src : List Nat}
    (h : parseChunkSize src = none) :
    copyBodyChunked oracle src = ⟨.badChunk, [], [], src⟩ := by
  rw [copyBodyChunked.eq_def]
  split
  · rfl
  · next n line rest heq =>
    rw [h] at heq
    simp at heq

/-- A parsed zero-size chunk: the size line plus the following two bytes are
emitted and the copier stops. -/
theorem copyBodyChunked_zero {oracle : List Nat → Nat} {src line rest : List Nat}
    (h : parseChunkSize src = some (0, line, rest)) (hlen : 2 ≤ rest.length) :
    copyBodyChunked oracle src =
      ⟨.ok, line ++ rest.take 2, line ++ rest.take 2, rest.drop 2⟩ := by
  rw [copyBodyChunked.eq_def]
  split
  · next heq =>
    rw [h] at heq
    simp at heq
  · next n0 line0 rest0 heq =>
    rw [h] at heq
    simp only [Option.some.injEq, Prod.mk.injEq] at heq
    obtain ⟨hn, hl, hr⟩ := heq
    subst hn hl hr
    have hne : rest ≠ [] := List.ne_nil_of_length_pos (by omega)
    simp [copyBodyFixedSize_eq, hne, hlen]

/-- A parsed positive chunk wholly available in the stream: the size line
and exactly `n + 2` bytes are emitted, then the copier continues behind
them. -/
theorem copyBodyChunked_pos {oracle : List Nat → Nat} {src : List Nat} {n : Nat}
    {line rest : List Nat}
    (h : parseChunkSize src = some (n, line, rest)) (hn : n ≠ 0)
    (hlen : n + 2 ≤ rest.length) :
    copyBodyChunked oracle src =
      ⟨(copyBodyChunked oracle (rest.drop (n + 2))).res,
       line ++ rest.take (n + 2) ++ (copyBodyChunked oracle (rest.drop (n + 2))).written,
       line ++ rest.take (n + 2) ++ (copyBodyChunked oracle (rest.drop (n + 2))).sniffed,
       (copyBodyChunked oracle (rest.drop (n + 2))).rest⟩ := by
  rw [copyBodyChunked.eq_def]
  split
  · next heq =>
    rw [h] at heq
    simp at heq
  · next n0 line0 rest0 heq =>
    rw [h] at heq
    simp only [Option.some.injEq, Prod.mk.injEq] at heq
    obtain ⟨hn0, hl, hr⟩ := heq
    subst hn0 hl hr
    have hne : rest ≠ [] := List.ne_nil_of_length_pos (by omega)
    simp [copyBodyFixedSize_eq, hne, hlen, hn]

/-- A parsed chunk whose `n + 2` bytes are not all available: the fixed-size
copier hits EOF, which the chunked copier propagates after emitting the size
line and whatever bytes were left. -/
theorem copyBodyChunked_short {oracle : List Nat → Nat} {src : List Nat} {n : Nat}
    {line rest : List Nat}
    (h : parseChunkSize src = some (n, line, rest)) (hlen : rest.length < n + 2) :
    copyBodyChunked oracle src = ⟨.eof, line ++ rest, line ++ rest, []⟩ := by
  rw [copyBodyChunked.eq_def]
  split
  · next heq =>
    rw [h] at heq
    simp at heq
  · next n0 line0 rest0 heq =>
    rw [h] at heq
    simp only [Option.some.injEq, Prod.mk.injEq] at heq
    obtain ⟨hn0, hl, hr⟩ := heq
    subst hn0 hl hr
    have hcond : ¬(rest ≠ [] ∧ n + 2 ≤ rest.length) := by
      intro hc
      omega
    have htake : rest.take (n + 2) = rest := List.take_of_length_le (by omega)
    have hdrop : rest.drop (n + 2) = [] := List.drop_eq_nil_of_le (by omega)
    simp [copyBodyFixedSize_eq, hcond, htake, hdrop]

/-! Claim theorems. -/

/-- C1: for every content length `N > 0`, `copyBodyFixedSize` never consumes
more than `N` bytes from the source (everything consumed is exactly what was
written, and at most `N` bytes are written); on success it has written
exactly `N` bytes and consumed exactly `N`; when the source reaches EOF
before `N` bytes it reports the EOF error (the spec's `UnexpectedEOF`)
having written at most `N` bytes. -/
theorem copyBodyFixedSize_spec (oracle : List Nat → Nat) (src : List Nat) (N : Nat)
    (hN : 0 < N) :
    (copyBodyFixedSize oracle src N).written ++ (copyBodyFixedSize oracle src N).rest = src ∧
    (copyBodyFixedSize oracle src N).sniffed = (copyBodyFixedSize oracle src N).written ∧
    (copyBodyFixedSize oracle src N).written.length ≤ N ∧
    ((copyBodyFixedSize oracle src N).res = .ok ↔ N ≤ src.length) ∧
    ((copyBodyFixedSize oracle src N).res = .ok →
      (copyBodyFixedSize oracle src N).written.length = N ∧
      (copyBodyFixedSize oracle src N).rest = src.drop N) ∧
    ((copyBodyFixedSize oracle src N).res ≠ .ok →
      (copyBodyFixedSize oracle src N).res = .eof ∧
      (copyBodyFixedSize oracle src N).written = src ∧ src.length < N) := by
  rw [copyBodyFixedSize_eq]
  dsimp only
  by_cases hc : src ≠ [] ∧ N ≤ src.length
  · rw [if_pos hc]
    refine ⟨List.take_append_drop N src, rfl, ?_, ?_, ?_, ?_⟩
    · simp [List.length_take]
    · simp [hc.2]
    · intro _
      refine ⟨?_, rfl⟩
      simp [List.length_take]
      omega
    · intro hne
      exact absurd rfl hne
  · rw [if_neg hc]
    have hsl : src.length < N := by
      rcases not_and_or.mp hc with h1 | h2
      · have : src = [] := by
          by_contra hx
          exact h1 hx
        rw [this]
        simpa using hN
      · omega
    have htake : src.take N = src := List.take_of_length_le (by omega)
    refine ⟨?_, rfl, ?_, ?_, ?_, ?_⟩
    · rw [htake, List.drop_eq_nil_of_le (by omega)]
      simp
    · simp [List.length_take]
    · constructor
      · intro hx
        exact absurd hx (by simp)
      · intro hx
        omega
    · intro hx
      exact absurd hx (by simp)
    · intro _
      exact ⟨rfl, htake, hsl⟩

/-- Witness for C1 at a concrete input. -/
theorem copyBodyFixedSize_spec_witness :
    (copyBodyFixedSize (fun _ => 2) [1, 2, 3, 4, 5] 3).written ++
        (copyBodyFixedSize (fun _ => 2) [1, 2, 3, 4, 5] 3).rest = [1, 2, 3, 4, 5] ∧
    (copyBodyFixedSize (fun _ => 2) [1, 2, 3, 4, 5] 3).written.length ≤ 3 ∧
    ((copyBodyFixedSize (fun _ => 2) [1, 2, 3, 4, 5] 3).res = .ok ↔
      3 ≤ [1, 2, 3, 4, 5].length) := by
  have h := copyBodyFixedSize_spec (fun _ => 2) [1, 2, 3, 4, 5] 3 (by decide)
  exact ⟨h.1, h.2.2.1, h.2.2.2.1⟩

/-- C2 (amended): `copyBodyChunked` repeatedly parses a hex chunk-size line
terminated by a mandatory CRLF, forwards the size line verbatim to both the
destination and the sniffer, then copies exactly `chunkSize + 2` bytes
(chunk body plus CRLF); a chunk size of 0 terminates the body after those
two bytes — trailing headers are not read or forwarded; invalid hex or a
missing CRLF after the size yields the chunk error; a truncated chunk
propagates the EOF error. -/
theorem copyBodyChunked_spec (oracle : List Nat → Nat) (src : List Nat) :
    (parseChunkSize src = none → copyBodyChunked oracle src = ⟨.badChunk, [], [], src⟩) ∧
    (∀ n line rest, parseChunkSize src = some (n, line, rest) →
      (line = src.takeWhile isHexDigit ++ [13, 10] ∧ src.takeWhile isHexDigit ≠ [] ∧
        src = src.takeWhile isHexDigit ++ 13 :: 10 :: rest) ∧
      (rest.length < n + 2 →
        copyBodyChunked oracle src = ⟨.eof, line ++ rest, line ++ rest, []⟩) ∧
      (n = 0 → 2 ≤ rest.length →
        copyBodyChunked oracle src =
          ⟨.ok, line ++ rest.take 2, line ++ rest.take 2, rest.drop 2⟩) ∧
      (n ≠ 0 → n + 2 ≤ rest.length →
        copyBodyChunked oracle src =
          ⟨(copyBodyChunked oracle (rest.drop (n + 2))).res,
           line ++ rest.take (n + 2) ++ (copyBodyChunked oracle (rest.drop (n + 2))).written,
           line ++ rest.take (n + 2) ++ (copyBodyChunked oracle (rest.drop (n + 2))).sniffed,
           (copyBodyChunked oracle (rest.drop (n + 2))).rest⟩)) := by
  refine ⟨fun h => copyBodyChunked_parse_fail h, ?_⟩
  intro n line rest h
  obtain ⟨hline, hne, hsplit, -⟩ := parseChunkSize_some h
  refine ⟨⟨hline, hne, hsplit⟩, ?_, ?_, ?_⟩
  · intro hlen
    exact copyBodyChunked_short h hlen
  · intro hn hlen
    subst hn
    exact copyBodyChunked_zero h hlen
  · intro hn hlen
    exact copyBodyChunked_pos h hn hlen

/-- Witness for C2 at a concrete input (the body `0 CRLF CRLF`). -/
theorem copyBodyChunked_spec_witness :
    copyBodyChunked (fun _ => 64) [48, 13, 10, 13, 10] =
      ⟨.ok, [48, 13, 10] ++ [13, 10].take 2, [48, 13, 10] ++ [13, 10].take 2,
       [13, 10].drop 2⟩ :=
  (((copyBodyChunked_spec (fun _ => 64) [48, 13, 10, 13, 10]).2 0 [48, 13, 10] [13, 10]
    (by decide)).2.2.1) rfl (by decide)

/-- C2 counterexample: the source stream carries the terminated chunked body
`0 CRLF` followed by the trailing header block `X-T: 1 CRLF CRLF` (bytes
`88, 45, 84, 58, 32, 49, 13, 10, 13, 10`).  The claim says trailing headers
are read and forwarded verbatim until the final empty line; instead the code
copies exactly two bytes after the zero-size line (`88, 45`, i.e. `X-`) and
returns with the rest of the trailer block left unread in the source. -/
theorem copyBodyChunked_trailer_counterexample :
    copyBodyChunked (fun _ => 64) [48, 13, 10, 88, 45, 84, 58, 32, 49, 13, 10, 13, 10] =
      ⟨.ok, [48, 13, 10, 88, 45], [48, 13, 10, 88, 45],
       [84, 58, 32, 49, 13, 10, 13, 10]⟩ ∧
    [84, 58, 32, 49, 13, 10, 13, 10] ≠ ([] : List Nat) := by
  constructor
  · have h : parseChunkSize [48, 13, 10, 88, 45, 84, 58, 32, 49, 13, 10, 13, 10] =
        some (0, [48, 13, 10], [88, 45, 84, 58, 32, 49, 13, 10, 13, 10]) := by decide
    rw [copyBodyChunked_zero h (by decide)]
    decide
  · decide

/-- C3: `copyBody` selects the body mode from the parsed header: under the
header parser's documented guarantee (chunked wins over `Content-Length`), a
chunked body runs the chunked copier; a positive content length (necessarily
non-chunked) runs the fixed-size copier, copying exactly that many bytes
when they are available; an identity body (neither length nor chunked)
copies until EOF and EOF is not an error; otherwise no body bytes are
copied. -/
theorem copyBody_spec (oracle : List Nat → Nat) (hdr : Header) (src : List Nat)
    (hwf : headerChunkedWins hdr) :
    (hdr.bodyChunked = true → copyBody oracle hdr src = copyBodyChunked oracle src) ∧
    (0 < hdr.contentLength →
      copyBody oracle hdr src = copyBodyFixedSize oracle src hdr.contentLength.toNat ∧
      (hdr.contentLength.toNat ≤ src.length →
        (copyBody oracle hdr src).res = .ok ∧
        (copyBody oracle hdr src).written.length = hdr.contentLength.toNat)) ∧
    (hdr.contentLength ≤ 0 → hdr.bodyChunked = false → hdr.bodyIdentity = true →
      src.length < maxInt64 → copyBody oracle hdr src = ⟨.ok, src, src, []⟩) ∧
    (hdr.contentLength ≤ 0 → hdr.bodyChunked = false → hdr.bodyIdentity = false →
      copyBody oracle hdr src = ⟨.ok, [], [], src⟩) := by
  refine ⟨?_, ?_, ?_, ?_⟩
  · intro hch
    have hcl : ¬0 < hdr.contentLength := by
      have := hwf hch
      omega
    unfold copyBody
    rw [if_neg hcl, if_pos hch]
  · intro hcl
    have he : copyBody oracle hdr src = copyBodyFixedSize oracle src hdr.contentLength.toNat := by
      unfold copyBody
      rw [if_pos hcl]
    refine ⟨he, ?_⟩
    intro hlen
    rw [he, copyBodyFixedSize_eq]
    have hpos : 0 < hdr.contentLength.toNat := by omega
    have hne : src ≠ [] := by
      have : 0 < src.length := by omega
      exact List.ne_nil_of_length_pos this
    constructor
    · simp [hne, hlen]
    · simp [List.length_take]
      omega
  · intro hcl hch hid hlen
    have h1 : ¬0 < hdr.contentLength := by omega
    unfold copyBody
    rw [if_neg h1, if_neg (by simp [hch]), if_pos (by simp [hid])]
    have hcond : ¬(src ≠ [] ∧ maxInt64 ≤ src.length) := by
      intro hc
      omega
    unfold copyBodyIdentity
    rw [copyBodyFixedSize_eq, if_neg hcond]
    simp [List.take_of_length_le (le_of_lt hlen), List.drop_eq_nil_of_le (le_of_lt hlen)]
  · intro hcl hch hid
    have h1 : ¬0 < hdr.contentLength := by omega
    unfold copyBody
    rw [if_neg h1, if_neg (by simp [hch]), if_neg (by simp [hid])]

/-- Witness for C3 at concrete headers: a chunked header dispatches to the
chunked copier, a no-body header copies nothing. -/
theorem copyBody_spec_witness :
    copyBody (fun _ => 7) ⟨-1, true, false, false⟩ [53, 13, 10] =
      copyBodyChunked (fun _ => 7) [53, 13, 10] ∧
    copyBody (fun _ => 7) ⟨0, false, false, false⟩ [9, 9] = ⟨.ok, [], [], [9, 9]⟩ :=
  ⟨(copyBody_spec (fun _ => 7) ⟨-1, true, false, false⟩ [53, 13, 10] (fun _ => by decide)).1 rfl,
   (copyBody_spec (fun _ => 7) ⟨0, false, false, false⟩ [9, 9] (fun _ => by decide)).2.2.2
     (by decide) rfl rfl⟩

/-- C4 counterexample: the non-proxy message is 64 bytes long, not 60, so
the emitted header field is `Content-Length: 64` and the response differs
from the wire bytes the claim spells out (which carry `Content-Length: 60`).
The concrete date is irrelevant to the divergence. -/
theorem writeFastError_length_counterexample :
    nonProxyRequestMsg.length = 64 ∧
    (serveConnNoHost "Thu, 01 Jan 1970 00:00:00 GMT").wire ≠
      "HTTP/1.1 400 Bad Request\r\nConnection: close\r\nDate: Thu, 01 Jan 1970 00:00:00 GMT\r\nContent-Type: text/plain\r\nContent-Length: 60\r\n\r\nThis is a proxy server. Does not respond to non-proxy requests.\n" := by
  constructor
  · decide
  · decide

/-- C4 (amended): for every connection whose request parsing fails with
`NoHostProvided`, `serveConn` answers downstream with exactly
`HTTP/1.1 400 Bad Request CRLF Connection: close CRLF Date: <date> CRLF
Content-Type: text/plain CRLF Content-Length: 64 CRLF CRLF <64-byte
non-proxy message>` — the emitted `Content-Length` value (64, not the 60 of
the original claim) equals the byte length of the message body — and the
connection is then closed. -/
theorem serveConnNoHost_spec (date : String) :
    (serveConnNoHost date).wire =
      "HTTP/1.1 400 Bad Request\r\nConnection: close\r\nDate: " ++ date ++
        "\r\nContent-Type: text/plain\r\nContent-Length: 64\r\n\r\nThis is a proxy server. Does not respond to non-proxy requests.\n" ∧
    toString nonProxyRequestMsg.length = "64" ∧
    nonProxyRequestMsg.length = 64 ∧
    (serveConnNoHost date).closed = true := by
  refine ⟨?_, by decide, by decide, rfl⟩
  have h64 : toString nonProxyRequestMsg.length = "64" := by decide
  unfold serveConnNoHost writeFastError statusLine
  dsimp only
  rw [if_pos rfl, h64]
  apply String.ext
  simp [nonProxyRequestMsg]

/-- C5: on a CONNECT whose host is not decrypted, `tunnelConnect` first
dials the target: if the dial fails it writes exactly the 501 line
downstream and returns an error without writing the 200 line; if the dial
(and the 200-OK write) succeeds it writes exactly the 200 line and then runs
both directional copies, returning (only after both have completed, by the
wait group) the bytes each direction relayed, with an error iff either copy
failed. -/
theorem tunnelConnect_spec (dialOk okWriteOk : Bool) (clientBytes originBytes : List Nat)
    (fwd1Err fwd2Err : Bool) :
    (dialOk = false →
      tunnelConnect dialOk okWriteOk clientBytes originBytes fwd1Err fwd2Err =
        ⟨[statusBadGatewayLine], true, none, none⟩ ∧
      statusOKLine ∉
        (tunnelConnect dialOk okWriteOk clientBytes originBytes fwd1Err fwd2Err).downstream) ∧
    (dialOk = true → okWriteOk = true →
      (tunnelConnect dialOk okWriteOk clientBytes originBytes fwd1Err fwd2Err).downstream =
        [statusOKLine] ∧
      (tunnelConnect dialOk okWriteOk clientBytes originBytes fwd1Err fwd2Err).fwdClientToOrigin =
        some clientBytes ∧
      (tunnelConnect dialOk okWriteOk clientBytes originBytes fwd1Err fwd2Err).fwdOriginToClient =
        some originBytes ∧
      (tunnelConnect dialOk okWriteOk clientBytes originBytes fwd1Err fwd2Err).err =
        (fwd1Err || fwd2Err)) := by
  constructor
  · intro hd
    subst hd
    have he : tunnelConnect false okWriteOk clientBytes originBytes fwd1Err fwd2Err =
        ⟨[statusBadGatewayLine], true, none, none⟩ := rfl
    refine ⟨he, ?_⟩
    rw [he]
    decide
  · intro hd hw
    subst hd hw
    simp [tunnelConnect]

/-- Witness for C5 at concrete inputs: a failed dial, and a successful
tunnel. -/
theorem tunnelConnect_spec_witness :
    tunnelConnect false true [1] [2] false false =
      ⟨[statusBadGatewayLine], true, none, none⟩ ∧
    (tunnelConnect true true [1] [2] false false).downstream = [statusOKLine] ∧
    (tunnelConnect true true [1] [2] false false).fwdClientToOrigin = some [1] ∧
    (tunnelConnect true true [1] [2] false false).fwdOriginToClient = some [2] :=
  ⟨((tunnelConnect_spec false true [1] [2] false false).1 rfl).1,
   ((tunnelConnect_spec true true [1] [2] false false).2 rfl rfl).1,
   ((tunnelConnect_spec true true [1] [2] false false).2 rfl rfl).2.1,
   ((tunnelConnect_spec true true [1] [2] false false).2 rfl rfl).2.2.1⟩

/-- Every instant at which the overflow logger fires is more than a minute
after the `lastOverflowErrorTime` it started from. -/
theorem overflowLogTimes_mem : ∀ (ts : List Nat) (lastMs t : Nat),
    t ∈ overflowLogTimes lastMs ts → lastMs + minuteMs < t := by
  intro ts
  induction ts with
  | nil =>
    intro lastMs t h
    simp [overflowLogTimes] at h
  | cons a as ih =>
    intro lastMs t h
    simp only [overflowLogTimes] at h
    by_cases hc : minuteMs < a - lastMs
    · rw [if_pos hc] at h
      rcases List.mem_cons.mp h with h1 | h2
      · omega
      · have := ih a t h2
        omega
    · rw [if_neg hc] at h
      exact ih lastMs t h

/-- Consecutive overflow log instants are more than a minute apart. -/
theorem overflowLogTimes_chain : ∀ (ts : List Nat) (lastMs : Nat),
    (overflowLogTimes lastMs ts).Chain' (fun a b => a + minuteMs < b) := by
  intro ts
  induction ts with
  | nil =>
    intro lastMs
    simp [overflowLogTimes]
  | cons a as ih =>
    intro lastMs
    simp only [overflowLogTimes]
    by_cases hc : minuteMs < a - lastMs
    · rw [if_pos hc, List.chain'_cons']
      refine ⟨?_, ih a⟩
      intro y hy
      exact overflowLogTimes_mem as a y (List.mem_of_mem_head? hy)
    · rw [if_neg hc]
      exact ih lastMs

/-- C6: the worker pool size `Serve` configures is the constant
`DefaultConcurrency = 256 * 1024`; when the pool rejects a connection,
`Serve` writes the 503 response (which carries a `Connection: close` header
and a correct `Content-Length`), closes the socket, sleeps 100 ms, and logs
the overflow only when more than a minute has passed since the previous
overflow log — so consecutive log instants are more than a minute apart. -/
theorem serve_overflow_spec :
    DefaultConcurrency = 262144 ∧ maxWorkersCount = DefaultConcurrency ∧
    (∀ (date : String) (nowMs lastMs : Nat),
      (serveOnReject date nowMs lastMs).1.wire =
        "HTTP/1.1 503 Service Unavailable\r\nConnection: close\r\nDate: " ++ date ++
          "\r\nContent-Type: text/plain\r\nContent-Length: 73\r\n\r\nThe connection cannot be served because Server.Concurrency limit exceeded" ∧
      (serveOnReject date nowMs lastMs).1.connClosed = true ∧
      (serveOnReject date nowMs lastMs).1.sleepMilliseconds = 100 ∧
      ((serveOnReject date nowMs lastMs).1.logged = true ↔ minuteMs < nowMs - lastMs) ∧
      (serveOnReject date nowMs lastMs).2 =
        (if minuteMs < nowMs - lastMs then nowMs else lastMs)) ∧
    (∀ (lastMs : Nat) (ts : List Nat),
      (overflowLogTimes lastMs ts).Chain' (fun a b => a + minuteMs < b)) := by
  refine ⟨rfl, rfl, ?_, fun lastMs ts => overflowLogTimes_chain ts lastMs⟩
  intro date nowMs lastMs
  refine ⟨?_, rfl, rfl, by simp [serveOnReject], rfl⟩
  have h73 : toString concurrencyOverflowMsg.length = "73" := by decide
  unfold serveOnReject writeFastError statusLine
  dsimp only
  rw [if_neg (by decide), if_pos rfl, h73]
  apply String.ext
  simp [concurrencyOverflowMsg]

/-- What a successful `initWithReader` did: the request was unbound, the
reader argument was non-nil, the parse succeeded, the fields were assigned,
and a TLS init carried a non-empty server name (shared helper). -/
theorem initWithReader_ok {r r' : Request} {reader : Option Nat} {sniffer : Nat}
    {isTLS : Bool} {hostWithPort tlsServerName : String} {parsedLine : Option RequestLine}
    (h : r.initWithReader reader sniffer isTLS hostWithPort tlsServerName parsedLine = .ok r') :
    r.reader = none ∧ reader.isSome = true ∧ parsedLine ≠ none ∧
    r' = { r with reader := reader, reqLine := parsedLine.getD {}, sniffer := sniffer,
                  isTLS := isTLS, tlsServerName := tlsServerName } ∧
    (isTLS = true → tlsServerName ≠ "") := by
  unfold Request.initWithReader at h
  by_cases h1 : r.reader.isSome = true
  · rw [if_pos h1] at h
    simp at h
  · rw [if_neg h1] at h
    by_cases h2 : reader.isNone = true
    · rw [if_pos h2] at h
      simp at h
    · rw [if_neg h2] at h
      by_cases h3 : isTLS = true ∧ tlsServerName = ""
      · rw [if_pos h3] at h
        simp at h
      · rw [if_neg h3] at h
        cases parsedLine with
        | none => simp at h
        | some rl =>
          dsimp only at h
          simp only [Except.ok.injEq] at h
          refine ⟨?_, ?_, by simp, ?_, ?_⟩
          · cases hr : r.reader with
            | none => rfl
            | some a =>
              rw [hr] at h1
              simp at h1
          · cases hv : reader with
            | none =>
              rw [hv] at h2
              simp at h2
            | some a => rfl
          · rw [← h]
            rfl
          · intro ht heq
            exact h3 ⟨ht, heq⟩

/-- C7: request initialization (`initWithReader`, reached by
`InitWithProxyReader` and `InitWithTLSClientReader`) fails — leaving the
request unbound — when the request is already bound, when the supplied
reader is nil, when a TLS init carries an empty server name, or when the
request-line parse fails; a success implies the request was previously
unbound (so a request is bound at most once until reset) and a TLS-bound
request has a non-empty server name. -/
theorem initWithReader_spec (r : Request) (reader : Option Nat) (sniffer : Nat)
    (isTLS : Bool) (hostWithPort tlsServerName : String) (parsedLine : Option RequestLine) :
    (r.reader.isSome = true →
      initFailed (r.initWithReader reader sniffer isTLS hostWithPort tlsServerName parsedLine) =
        true) ∧
    (reader = none →
      initFailed (r.initWithReader reader sniffer isTLS hostWithPort tlsServerName parsedLine) =
        true) ∧
    (isTLS = true → tlsServerName = "" →
      initFailed (r.initWithReader reader sniffer isTLS hostWithPort tlsServerName parsedLine) =
        true) ∧
    (parsedLine = none →
      initFailed (r.initWithReader reader sniffer isTLS hostWithPort tlsServerName parsedLine) =
        true) ∧
    (∀ r', r.initWithReader reader sniffer isTLS hostWithPort tlsServerName parsedLine = .ok r' →
      r.reader = none ∧ r'.reader = reader ∧ reader.isSome = true ∧
      r'.isTLS = isTLS ∧ r'.tlsServerName = tlsServerName ∧ r'.sniffer = sniffer ∧
      (isTLS = true → r'.tlsServerName ≠ "")) ∧
    (r.InitWithProxyReader reader sniffer parsedLine =
      r.initWithReader reader sniffer false "" "" parsedLine) ∧
    (r.InitWithTLSClientReader reader sniffer hostWithPort tlsServerName parsedLine =
      r.initWithReader reader sniffer true hostWithPort tlsServerName parsedLine) := by
  refine ⟨?_, ?_, ?_, ?_, ?_, rfl, rfl⟩
  · intro h
    unfold Request.initWithReader
    rw [if_pos h]
    rfl
  · intro h
    subst h
    unfold Request.initWithReader
    by_cases h1 : r.reader.isSome = true
    · rw [if_pos h1]
      rfl
    · rw [if_neg h1]
      rfl
  · intro ht hn
    unfold Request.initWithReader
    by_cases h1 : r.reader.isSome = true
    · rw [if_pos h1]
      rfl
    · rw [if_neg h1]
      by_cases h2 : reader.isNone = true
      · rw [if_pos h2]
        rfl
      · rw [if_neg h2, if_pos ⟨ht, hn⟩]
        rfl
  · intro hp
    subst hp
    unfold Request.initWithReader
    by_cases h1 : r.reader.isSome = true
    · rw [if_pos h1]
      rfl
    · rw [if_neg h1]
      by_cases h2 : reader.isNone = true
      · rw [if_pos h2]
        rfl
      · rw [if_neg h2]
        by_cases h3 : isTLS = true ∧ tlsServerName = ""
        · rw [if_pos h3]
          rfl
        · rw [if_neg h3]
          rfl
  · intro r' h
    obtain ⟨hnone, hsome, -, hr, htls⟩ := initWithReader_ok h
    subst hr
    exact ⟨hnone, rfl, hsome, rfl, rfl, rfl, htls⟩

/-- Witness for C7 at concrete inputs: all four failure modes fire. -/
theorem initWithReader_spec_witness :
    initFailed (Request.initWithReader { reader := some 1 } (some 2) 0 false "" "" (some {})) =
      true ∧
    initFailed (Request.initWithReader {} none 0 false "" "" (some {})) = true ∧
    initFailed (Request.initWithReader {} (some 2) 0 true "h:443" "" (some {})) = true ∧
    initFailed (Request.initWithReader {} (some 2) 0 false "" "" none) = true :=
  ⟨(initWithReader_spec { reader := some 1 } (some 2) 0 false "" "" (some {})).1 rfl,
   (initWithReader_spec {} none 0 false "" "" (some {})).2.1 rfl,
   (initWithReader_spec {} (some 2) 0 true "h:443" "" (some {})).2.2.1 rfl rfl,
   (initWithReader_spec {} (some 2) 0 false "" "" none).2.2.2.1 rfl⟩

/-- C8: on the MITM decrypt path, when the client's ClientHello carried no
server name the captured SNI is empty and `decryptConnect` fails — even if
the TLS handshake itself succeeded: no `Request` is bound to the decrypted
stream and nothing is handed to the upstream client engine. -/
theorem decryptConnect_noSNI (signOk handshakeOk : Bool) (sni : String)
    (reqInitOk respInitOk doOk : Bool) (h : sni = "") :
    (decryptConnect signOk handshakeOk sni reqInitOk respInitOk doOk).err = true ∧
    (decryptConnect signOk handshakeOk sni reqInitOk respInitOk doOk).requestBound = false ∧
    (decryptConnect signOk handshakeOk sni reqInitOk respInitOk doOk).upstreamForwarded =
      false := by
  subst h
  cases signOk with
  | false => simp [decryptConnect]
  | true => simp [decryptConnect]

/-- Witness for C8: missing SNI with every other stage healthy (certificate
signed, handshake succeeded). -/
theorem decryptConnect_noSNI_witness :
    (decryptConnect true true "" true true true).err = true ∧
    (decryptConnect true true "" true true true).requestBound = false ∧
    (decryptConnect true true "" true true true).upstreamForwarded = false :=
  decryptConnect_noSNI true true "" true true true rfl

/-- C9: `Response.ConnectionClose` returns `false` for every `Response` in
every state — also for one whose parsed header block carries the
connection-close flag. -/
theorem responseConnClose_spec : ∀ (r : Response),
    Response.ConnectionClose r = false ∧
    Response.ConnectionClose { r with header := { r.header with connClose := true } } = false :=
  fun _ => ⟨rfl, rfl⟩

/-- C10: `Request.Reset` (and therefore `ReleaseRequest`) clears only the
reader, the request line and the header block; `isTLS`, `tlsServerName` and
the sniffer are left unchanged, so a recycled request still reports the
previous use's `IsTLS` and `TLSServerName` until a later successful
initialization overwrites them. -/
theorem requestReset_spec : ∀ (r : Request),
    (Request.Reset r).isTLS = r.isTLS ∧
    (Request.Reset r).tlsServerName = r.tlsServerName ∧
    (Request.Reset r).sniffer = r.sniffer ∧
    (Request.Reset r).reader = none ∧
    (Request.Reset r).reqLine = {} ∧
    (Request.Reset r).header = Header.reset ∧
    ReleaseRequest r = Request.Reset r ∧
    (Request.Reset r).IsTLS = r.IsTLS ∧
    (Request.Reset r).TLSServerName = r.TLSServerName ∧
    (∀ (reader : Option Nat) (sniffer : Nat) (isTLS : Bool)
        (hostWithPort tlsServerName : String) (parsedLine : Option RequestLine) (r' : Request),
      (Request.Reset r).initWithReader reader sniffer isTLS hostWithPort tlsServerName
          parsedLine = .ok r' →
      r'.isTLS = isTLS ∧ r'.tlsServerName = tlsServerName) := by
  intro r
  refine ⟨rfl, rfl, rfl, rfl, rfl, rfl, rfl, rfl, rfl, ?_⟩
  intro reader sniffer isTLS hostWithPort tlsServerName parsedLine r' h
  obtain ⟨-, -, -, hr, -⟩ := initWithReader_ok h
  subst hr
  exact ⟨rfl, rfl⟩

/-- Witness for C10: a request that was TLS-bound to `old.example` is reset;
the recycled object still reports the old TLS identity while its reader is
cleared, and a subsequent successful initialization overwrites the TLS
fields. -/
theorem requestReset_spec_witness :
    (Request.Reset { reader := some 9, isTLS := true, tlsServerName := "old.example", sniffer := 7 }).IsTLS = true ∧
    (Request.Reset { reader := some 9, isTLS := true, tlsServerName := "old.example", sniffer := 7 }).TLSServerName = "old.example" ∧
    (Request.Reset { reader := some 9, isTLS := true, tlsServerName := "old.example", sniffer := 7 }).reader = none ∧
    ({ reader := some 1, isTLS := true, tlsServerName := "new.example" } : Request).isTLS = true := by
  have h := requestReset_spec
    { reader := some 9, isTLS := true, tlsServerName := "old.example", sniffer := 7 }
  refine ⟨(h.2.2.2.2.2.2.2.1).trans rfl, (h.2.2.2.2.2.2.2.2.1).trans rfl, h.2.2.2.1, ?_⟩
  exact (h.2.2.2.2.2.2.2.2.2 (some 1) 0 true "h:443" "new.example" (some {})
    { reader := some 1, isTLS := true, tlsServerName := "new.example" } rfl).1

end Fastproxy
